import Mathlib

/-
Verification of the keyboard-navigation logic of the accessible data-grid
component (the `DataGrid` component, the richest of the evolutionary
variants in the repository, whose navigation semantics per the design
document supersede the earlier `Table` variant).

The shallow embedding below mirrors the component's handlers:
`focusCell`, `handleKeyDown`, `handleTableFocus`, `handleCellFocus`, and
the empty-grid early return of the component body.  The rendered DOM is
abstracted to the flat ordered list of focusable cells that
`getFocusableCells` returns, each cell carrying the number of interactive
elements that `getInteractiveElements` would find inside it.  Native focus
transfer (`el.focus()`) is modelled as the optional `Target` a handler
resolves, and `e.preventDefault()` as a boolean in the handler result.
-/

set_option maxHeartbeats 1600000

namespace ATable

/-- A rendered grid cell, abstracted to the number of interactive elements
(`getInteractiveElements(cell).length`) contained in it. -/
structure Cell where
  inter : Nat
deriving DecidableEq, Repr

/-- A concrete focusable node inside the grid: either a cell itself
(identified by its flat index in the `getFocusableCells()` list) or the
`i`-th interactive element nested inside the cell at flat index `idx`. -/
inductive Target where
  | cell (idx : Nat)
  | inner (idx : Nat) (i : Nat)
deriving DecidableEq, Repr

/-- The rendered document as the component's handlers see it:
`cells` is the flat list returned by `getFocusableCells()` (header cells
first, then body cells in row-major order); `totalCols` is
`columns.length` and `dataRows` is `data.length` from the props. -/
structure Dom where
  cells : List Cell
  totalCols : Nat
  dataRows : Nat
deriving DecidableEq, Repr

/-- The component's persistent state: the `focusPosition` React state, the
`lastFocusedCell` ref and the `shiftTabPressedRef` flag. -/
structure FocusPos where
  row : Nat
  col : Nat
  innerIndex : Option Nat
deriving DecidableEq, Repr

structure GridState where
  focusPosition : Option FocusPos
  lastFocusedCell : Option Target
  shiftTabPressed : Bool
deriving DecidableEq, Repr

/-- The `e.target` of a key event, with the fields `isTextInput` reads. -/
structure Elem where
  tagName : String
  inputType : String
  isContentEditable : Bool
deriving DecidableEq, Repr

/-- A keyboard event: `key`, `shiftKey`, `ctrlKey` and the event target. -/
structure KeyEvent where
  key : String
  shiftKey : Bool
  ctrlKey : Bool
  target : Elem
deriving DecidableEq, Repr

/-- Result of a key-down handler: the state after the handler ran, the
node (if any) on which `.focus()` was called, and whether
`e.preventDefault()` was called. -/
structure KeyDownResult where
  state : GridState
  focused : Option Target
  defaultPrevented : Bool
deriving DecidableEq, Repr

/-- `getCellAtPosition`'s index computation:
`row === 0 ? col : row * totalCols + col`. -/
def cellIndex (totalCols row col : Nat) : Nat :=
  if row = 0 then col else row * totalCols + col

/-- `getCellAtPosition(row, col)`: look the flat index up in the
`getFocusableCells()` list (`cells[index] || null`). -/
def getCellAtPosition (d : Dom) (row col : Nat) : Option Cell :=
  d.cells[cellIndex d.totalCols row col]?

/-- The ordered list of interactive elements of the cell at flat index
`idx`, as `Target` values. -/
def interactiveElementsAt (idx : Nat) (cell : Cell) : List Target :=
  (List.range cell.inter).map (Target.inner idx)

/-- `focusCell(row, col, innerIndex = 0)`: resolve the cell; if it has
interactive elements, wrap `innerIndex` into range via
`(innerIndex + length) % length`, focus that element and remember it in
`lastFocusedCell`; otherwise focus the cell itself (and store no
`innerIndex`); in both cases store the new `focusPosition`.  If the cell
is not found, do nothing.  Call sites that pass `undefined` in the source
hit the JS default parameter `0`, so they pass `0` here. -/
def focusCell (d : Dom) (s : GridState) (row col innerIndex : Nat) :
    GridState × Option Target :=
  match getCellAtPosition d row col with
  | none => (s, none)
  | some cell =>
    let idx := cellIndex d.totalCols row col
    if 0 < cell.inter then
      let i := (innerIndex + cell.inter) % cell.inter
      let t := Target.inner idx i
      ({ s with focusPosition := some ⟨row, col, some i⟩,
                lastFocusedCell := some t }, some t)
    else
      let t := Target.cell idx
      ({ s with focusPosition := some ⟨row, col, none⟩,
                lastFocusedCell := some t }, some t)

/-- JS `String.prototype.toLowerCase()` restricted to what tag names
need (character-wise ASCII lowering). -/
def lowercase (s : String) : String :=
  ⟨s.data.map Char.toLower⟩

/-- `isTextInput(element)`: tag-based classification of text-editing
controls (the trailing `input`-with-text-type disjunct of the source is
subsumed by the first disjunct exactly as in the source). -/
def isTextInput (element : Elem) : Bool :=
  let tagName := lowercase element.tagName
  let ty := element.inputType
  let isEditable := element.isContentEditable
  tagName == "input" || tagName == "textarea" || tagName == "select" ||
    isEditable || (tagName == "div" && isEditable) ||
    (tagName == "input" &&
      ["text", "password", "email", "number", "search", "tel",
        "url"].contains ty)

/-- Package a successful-or-abandoned `focusCell` outcome as a handled
(`preventDefault`-ed) key-event result. -/
def focusResult (r : GridState × Option Target) : KeyDownResult :=
  ⟨r.1, r.2, true⟩

/-- The switch statement of `handleKeyDown(e)` — the part reached with a
recorded focus position `fp`, transcribed case by case from the source.
The source's local bindings `totalRows = data.length + 1`,
`totalCols = columns.length` and the destructuring
`{ row, col, innerIndex } = focusPosition` are inlined as
`d.dataRows + 1`, `d.totalCols` and the fields of `fp`. -/
def handleNavKey (d : Dom) (s : GridState) (fp : FocusPos) (e : KeyEvent) :
    KeyDownResult :=
  if e.key = "ArrowRight" then
    match getCellAtPosition d fp.row fp.col with
    | none => ⟨s, none, true⟩
    | some cell =>
      if 0 < cell.inter ∧ fp.innerIndex.getD 0 < cell.inter - 1 then
        focusResult (focusCell d s fp.row fp.col (fp.innerIndex.getD 0 + 1))
      else if fp.col < d.totalCols - 1 then
        focusResult (focusCell d s fp.row (fp.col + 1) 0)
      else if fp.row < d.dataRows + 1 - 1 then
        focusResult (focusCell d s (fp.row + 1) 0 0)
      else ⟨s, none, true⟩
  else if e.key = "ArrowLeft" then
    match getCellAtPosition d fp.row fp.col with
    | none => ⟨s, none, true⟩
    | some cell =>
      if 0 < cell.inter ∧ 0 < fp.innerIndex.getD 0 then
        focusResult (focusCell d s fp.row fp.col (fp.innerIndex.getD 0 - 1))
      else if 0 < fp.col then
        match getCellAtPosition d fp.row (fp.col - 1) with
        | some prevCell =>
          -- `prevInnerIndex >= 0 ? prevInnerIndex : undefined`: a JS
          -- `undefined` third argument hits the default parameter `0`,
          -- which coincides with Nat subtraction `prevCell.inter - 1`.
          focusResult (focusCell d s fp.row (fp.col - 1) (prevCell.inter - 1))
        | none => ⟨s, none, true⟩
      else if 0 < fp.row then
        match getCellAtPosition d (fp.row - 1) (d.totalCols - 1) with
        | some prevCell =>
          focusResult
            (focusCell d s (fp.row - 1) (d.totalCols - 1) (prevCell.inter - 1))
        | none => ⟨s, none, true⟩
      else ⟨s, none, true⟩
  else if e.key = "ArrowUp" then
    if 0 < fp.row then
      match getCellAtPosition d (fp.row - 1) fp.col with
      | some newCell =>
        if 0 < newCell.inter then
          focusResult
            (focusCell d s (fp.row - 1) fp.col
              (min (fp.innerIndex.getD 0) (newCell.inter - 1)))
        else
          focusResult (focusCell d s (fp.row - 1) fp.col 0)
      | none => ⟨s, none, true⟩
    else ⟨s, none, true⟩
  else if e.key = "ArrowDown" then
    if fp.row < d.dataRows + 1 - 1 then
      match getCellAtPosition d (fp.row + 1) fp.col with
      | some newCell =>
        if 0 < newCell.inter then
          focusResult
            (focusCell d s (fp.row + 1) fp.col
              (min (fp.innerIndex.getD 0) (newCell.inter - 1)))
        else
          focusResult (focusCell d s (fp.row + 1) fp.col 0)
      | none => ⟨s, none, true⟩
    else ⟨s, none, true⟩
  else if e.key = "Home" then
    if e.ctrlKey = true then
      focusResult (focusCell d s 0 0 0)
    else
      focusResult (focusCell d s fp.row 0 0)
  else if e.key = "End" then
    if e.ctrlKey = true then
      -- `focusCell(totalRows - 1, totalCols - 1, undefined)`: the JS
      -- default parameter turns the `undefined` into `0`.
      focusResult (focusCell d s (d.dataRows + 1 - 1) (d.totalCols - 1) 0)
    else
      match getCellAtPosition d fp.row (d.totalCols - 1) with
      | some lastCell =>
        focusResult
          (focusCell d s fp.row (d.totalCols - 1) (lastCell.inter - 1))
      | none => ⟨s, none, true⟩
  else ⟨s, none, false⟩

/-- `handleKeyDown(e)`: the text-input guard, the Tab branches and the
early return when no focus position is recorded; with a recorded
position, dispatch to the switch statement (`handleNavKey`). -/
def handleKeyDown (d : Dom) (s : GridState) (e : KeyEvent) : KeyDownResult :=
  if isTextInput e.target = true ∧
      (e.key = "ArrowLeft" ∨ e.key = "ArrowRight" ∨ e.key = "ArrowUp" ∨
        e.key = "ArrowDown") then
    ⟨s, none, false⟩
  else if e.key = "Tab" ∧ e.shiftKey = true then
    ⟨{ s with shiftTabPressed := true }, none, false⟩
  else if e.key = "Tab" then
    ⟨s, none, false⟩
  else
    match s.focusPosition with
    | none => ⟨s, none, false⟩
    | some fp => handleNavKey d s fp e

/-- `handleTableFocus(e)`: the grid-boundary handler.  `targetIsTable`
models `e.target === tableRef.current`.  The returned `Option Target` is
the node on which `.focus()` was called, if any. -/
def handleTableFocus (d : Dom) (s : GridState) (targetIsTable : Bool) :
    GridState × Option Target :=
  if targetIsTable = false then (s, none)
  else if s.shiftTabPressed = true then
    ({ s with shiftTabPressed := false }, none)
  else
    match s.lastFocusedCell with
    | some t => (s, some t)
    | none =>
      match d.cells[0]? with
      | some firstCell =>
        if 0 < firstCell.inter then
          let t := Target.inner 0 0
          ({ s with lastFocusedCell := some t,
                    focusPosition := some ⟨0, 0, some 0⟩ }, some t)
        else
          let t := Target.cell 0
          ({ s with lastFocusedCell := some t,
                    focusPosition := some ⟨0, 0, none⟩ }, some t)
      | none => (s, none)

/-- JS `Array.prototype.findIndex`, with `-1` rendered as `none`. -/
def findIndex {α : Type} (p : α → Bool) : List α → Option Nat
  | [] => none
  | a :: l => if p a then some 0 else (findIndex p l).map (· + 1)

/-- `handleCellFocus(row, col, event)`: resynchronize `focusPosition`
from a native focus event whose target is `target`, by locating the
target in the cell's interactive-element list.  `lastFocusedCell` and the
Shift+Tab flag are not touched by this handler. -/
def handleCellFocus (d : Dom) (s : GridState) (row col : Nat)
    (target : Target) : GridState :=
  match getCellAtPosition d row col with
  | some cell =>
    let interactiveElements :=
      interactiveElementsAt (cellIndex d.totalCols row col) cell
    let innerIndex := findIndex (fun el => el == target) interactiveElements
    { s with focusPosition := some ⟨row, col, innerIndex⟩ }
  | none => s

/-- Construction-time props, with each cell's content abstracted to the
number of interactive elements it renders: `columns` are the header
labels (plain text, hence zero interactive elements per header cell), and
each entry of `data` is `Object.values(row)` abstracted to the per-cell
interactive-element counts. -/
structure Props where
  columns : List String
  data : List (List Nat)
deriving DecidableEq, Repr

/-- The rendered component: the `Dom` over which the handlers
(`handleKeyDown`, `handleTableFocus`, `handleCellFocus`) are installed. -/
structure Rendered where
  dom : Dom
deriving DecidableEq, Repr

/-- The `DataGrid` component body: `if (!columns?.length || !data?.length)
return null;` — otherwise render header cells followed by the body cells
in row-major order, with the handlers installed over them. -/
def DataGrid (p : Props) : Option Rendered :=
  if p.columns.length = 0 ∨ p.data.length = 0 then none
  else
    some ⟨{ cells := p.columns.map (fun _ => ⟨0⟩) ++
              (p.data.map (fun r => r.map Cell.mk)).flatten,
            totalCols := p.columns.length,
            dataRows := p.data.length }⟩

/-- Well-formedness of the rendered document relative to the props: the
grid was rendered non-empty, every data row has exactly `columns.length`
cells, and nothing changed since render, so the flat cell list has
exactly `(dataRows + 1) * totalCols` entries. -/
def Dom.wf (d : Dom) : Prop :=
  d.cells.length = (d.dataRows + 1) * d.totalCols ∧
    0 < d.totalCols ∧ 0 < d.dataRows

/-- The FocusPosition invariant of the design document: row and column in
range, and any stored `innerIndex` indexes an interactive element of the
cell it points at. -/
def posInv (d : Dom) (fp : FocusPos) : Prop :=
  fp.row < d.dataRows + 1 ∧ fp.col < d.totalCols ∧
    ∀ j, fp.innerIndex = some j →
      ∃ cell, getCellAtPosition d fp.row fp.col = some cell ∧ j < cell.inter

/-- The invariant lifted to the whole component state. -/
def stateInv (d : Dom) (s : GridState) : Prop :=
  ∀ fp, s.focusPosition = some fp → posInv d fp

/-- Whether a concrete target is still present in the rendered document
(used to state the design document's notion of a stale
`LastFocusedTarget`). -/
def Target.presentIn (d : Dom) : Target → Bool
  | .cell idx => decide (idx < d.cells.length)
  | .inner idx i =>
    match d.cells[idx]? with
    | some c => decide (i < c.inter)
    | none => false

/-- A plain, non-text-editing event target (an ordinary cell). -/
def plainTd : Elem := ⟨"td", "", false⟩

/-- The canonical plain ArrowRight key event. -/
def arrowRightEvent : KeyEvent := ⟨"ArrowRight", false, false, plainTd⟩

/-- One ArrowRight key press delivered to `handleKeyDown`, viewed as a
state transformer. -/
def pressArrowRight (d : Dom) (s : GridState) : GridState :=
  (handleKeyDown d s arrowRightEvent).state

/-! Basic lemmas about the embedding. -/

theorem cellIndex_lt (totalCols row col dataRows : Nat)
    (hr : row < dataRows + 1) (hc : col < totalCols) :
    cellIndex totalCols row col < (dataRows + 1) * totalCols := by
  unfold cellIndex
  split
  · calc col < totalCols := hc
      _ = 1 * totalCols := (Nat.one_mul _).symm
      _ ≤ (dataRows + 1) * totalCols := Nat.mul_le_mul_right _ (by omega)
  · have h1 : row * totalCols + col < (row + 1) * totalCols := by
      rw [Nat.succ_mul]; omega
    have h2 : (row + 1) * totalCols ≤ (dataRows + 1) * totalCols :=
      Nat.mul_le_mul_right _ (by omega)
    omega

theorem getCellAtPosition_isSome (d : Dom) (row col : Nat) (hwf : d.wf)
    (hr : row < d.dataRows + 1) (hc : col < d.totalCols) :
    ∃ cell, getCellAtPosition d row col = some cell := by
  have hlt : cellIndex d.totalCols row col < d.cells.length := by
    rw [hwf.1]; exact cellIndex_lt _ _ _ _ hr hc
  unfold getCellAtPosition
  exact ⟨_, List.getElem?_eq_getElem hlt⟩

theorem focusCell_not_found (d : Dom) (s : GridState) (row col i : Nat)
    (h : getCellAtPosition d row col = none) :
    focusCell d s row col i = (s, none) := by
  unfold focusCell; rw [h]

theorem focusCell_fst_pos (d : Dom) (s : GridState) (row col i : Nat)
    (cell : Cell) (h : getCellAtPosition d row col = some cell) :
    ((focusCell d s row col i).1).focusPosition =
      some ⟨row, col,
        if 0 < cell.inter then some ((i + cell.inter) % cell.inter)
        else none⟩ := by
  unfold focusCell; rw [h]
  by_cases h2 : 0 < cell.inter <;> simp [h2]

theorem focusCell_fst_shiftTab (d : Dom) (s : GridState) (row col i : Nat) :
    ((focusCell d s row col i).1).shiftTabPressed = s.shiftTabPressed := by
  unfold focusCell
  cases getCellAtPosition d row col with
  | none => rfl
  | some cell => by_cases h2 : 0 < cell.inter <;> simp [h2]

theorem focusCell_last_isSome (d : Dom) (s : GridState) (row col i : Nat)
    (h : s.lastFocusedCell.isSome = true) :
    ((focusCell d s row col i).1).lastFocusedCell.isSome = true := by
  unfold focusCell
  cases getCellAtPosition d row col with
  | none => exact h
  | some cell => by_cases h2 : 0 < cell.inter <;> simp [h2]

theorem focusCell_snd_some (d : Dom) (s : GridState) (row col i : Nat)
    (t : Target) (h : (focusCell d s row col i).2 = some t) :
    ((focusCell d s row col i).1).lastFocusedCell = some t := by
  unfold focusCell at *
  cases hc : getCellAtPosition d row col with
  | none => rw [hc] at h; simp at h
  | some cell =>
    rw [hc] at h
    by_cases h2 : 0 < cell.inter <;> simp [h2] at h ⊢ <;> exact h

theorem focusCell_stateInv (d : Dom) (s : GridState) (row col i : Nat)
    (hs : stateInv d s) (hr : row < d.dataRows + 1) (hc : col < d.totalCols) :
    stateInv d ((focusCell d s row col i).1) := by
  intro fp hfp
  unfold focusCell at hfp
  cases h : getCellAtPosition d row col with
  | none => rw [h] at hfp; exact hs fp hfp
  | some cell =>
    rw [h] at hfp
    by_cases h2 : 0 < cell.inter
    · simp only [if_pos h2] at hfp
      simp only [Option.some.injEq] at hfp
      subst hfp
      exact ⟨hr, hc, fun j hj => ⟨cell, h, by
        simp only [Option.some.injEq] at hj
        exact hj ▸ Nat.mod_lt _ h2⟩⟩
    · simp only [if_neg h2] at hfp
      simp only [Option.some.injEq] at hfp
      subst hfp
      exact ⟨hr, hc, fun j hj => by simp at hj⟩

/-- Any `handleNavKey` result state is either the input state unchanged
or a `focusCell` result whose coordinates are in range whenever the
document is well-formed and the input position satisfies the invariant. -/
theorem handleNavKey_state_shape (d : Dom) (s : GridState) (fp : FocusPos)
    (e : KeyEvent) :
    (handleNavKey d s fp e).state = s ∨
    ∃ row col i, (handleNavKey d s fp e).state = (focusCell d s row col i).1 ∧
      (d.wf → posInv d fp → row < d.dataRows + 1 ∧ col < d.totalCols) := by
  unfold handleNavKey
  repeat' split
  all_goals first
    | exact Or.inl rfl
    | (refine Or.inr ⟨_, _, _, rfl, fun hwf hinv => ?_⟩
       obtain ⟨-, htc, hdr⟩ := hwf
       obtain ⟨hrr, hcc, -⟩ := hinv
       constructor <;> omega)

/-- Any `handleKeyDown` result state is the input state, the input state
with the Shift+Tab flag raised (only for a Shift+Tab event), or a
`focusCell` result at coordinates that stay in range. -/
theorem handleKeyDown_state_shape (d : Dom) (s : GridState) (e : KeyEvent) :
    (handleKeyDown d s e).state = s ∨
    ((handleKeyDown d s e).state = { s with shiftTabPressed := true } ∧
      e.key = "Tab" ∧ e.shiftKey = true) ∨
    ∃ row col i fp, s.focusPosition = some fp ∧
      (handleKeyDown d s e).state = (focusCell d s row col i).1 ∧
      (d.wf → posInv d fp → row < d.dataRows + 1 ∧ col < d.totalCols) := by
  unfold handleKeyDown
  by_cases h1 : isTextInput e.target = true ∧
      (e.key = "ArrowLeft" ∨ e.key = "ArrowRight" ∨ e.key = "ArrowUp" ∨
        e.key = "ArrowDown")
  · rw [if_pos h1]; exact Or.inl rfl
  rw [if_neg h1]
  by_cases h2 : e.key = "Tab" ∧ e.shiftKey = true
  · rw [if_pos h2]; exact Or.inr (Or.inl ⟨rfl, h2⟩)
  rw [if_neg h2]
  by_cases h3 : e.key = "Tab"
  · rw [if_pos h3]; exact Or.inl rfl
  rw [if_neg h3]
  cases hp : s.focusPosition with
  | none => exact Or.inl rfl
  | some fp =>
    rcases handleNavKey_state_shape d s fp e with h | ⟨row, col, i, heq, hb⟩
    · exact Or.inl h
    · exact Or.inr (Or.inr ⟨row, col, i, fp, rfl, heq, hb⟩)

/-- JS `findIndex` only returns indices inside the list. -/
theorem findIndex_lt_length {α : Type} (p : α → Bool) (l : List α) (j : Nat)
    (h : findIndex p l = some j) : j < l.length := by
  induction l generalizing j with
  | nil => simp [findIndex] at h
  | cons a l ih =>
    unfold findIndex at h
    by_cases hp : p a
    · rw [if_pos hp] at h
      cases h
      simp
    · rw [if_neg hp] at h
      simp only [Option.map_eq_some'] at h
      obtain ⟨k, hk, rfl⟩ := h
      simpa using Nat.succ_lt_succ (ih k hk)

theorem mod_wrap_last (n : Nat) (h : 0 < n) : (n - 1 + n) % n = n - 1 := by
  rw [Nat.add_mod_right]
  exact Nat.mod_eq_of_lt (by omega)

theorem plainTd_not_text : isTextInput plainTd = false := by decide

/-- With a recorded position, a non-Tab key event that is not swallowed
by the text-input guard reaches the switch statement. -/
theorem handleKeyDown_dispatch (d : Dom) (s : GridState) (e : KeyEvent)
    (fp : FocusPos) (hp : s.focusPosition = some fp)
    (h1 : ¬(isTextInput e.target = true ∧
      (e.key = "ArrowLeft" ∨ e.key = "ArrowRight" ∨ e.key = "ArrowUp" ∨
        e.key = "ArrowDown")))
    (h2 : ¬(e.key = "Tab")) :
    handleKeyDown d s e = handleNavKey d s fp e := by
  unfold handleKeyDown
  rw [if_neg h1, if_neg (by rintro ⟨hk, -⟩; exact h2 hk), if_neg h2, hp]

/-- ArrowRight with no within-cell movement available and room to the
right: move to the next column. -/
theorem handleNavKey_arrowRight_next (d : Dom) (s : GridState) (e : KeyEvent)
    (r c : Nat) (ii : Option Nat) (hk : e.key = "ArrowRight") (cell : Cell)
    (hcell : getCellAtPosition d r c = some cell)
    (hno : ¬(0 < cell.inter ∧ ii.getD 0 < cell.inter - 1))
    (hcol : c < d.totalCols - 1) :
    handleNavKey d s ⟨r, c, ii⟩ e = focusResult (focusCell d s r (c + 1) 0) := by
  unfold handleNavKey
  dsimp only
  rw [if_pos hk, hcell]
  dsimp only
  rw [if_neg hno, if_pos hcol]

/-- ArrowRight at the last column with no within-cell movement available
and a row below: wrap to the first column of the next row. -/
theorem handleNavKey_arrowRight_wrap (d : Dom) (s : GridState) (e : KeyEvent)
    (r c : Nat) (ii : Option Nat) (hk : e.key = "ArrowRight") (cell : Cell)
    (hcell : getCellAtPosition d r c = some cell)
    (hno : ¬(0 < cell.inter ∧ ii.getD 0 < cell.inter - 1))
    (hcol : ¬(c < d.totalCols - 1)) (hrow : r < d.dataRows + 1 - 1) :
    handleNavKey d s ⟨r, c, ii⟩ e = focusResult (focusCell d s (r + 1) 0 0) := by
  unfold handleNavKey
  dsimp only
  rw [if_pos hk, hcell]
  dsimp only
  rw [if_neg hno, if_neg hcol, if_pos hrow]

/-- ArrowLeft at column 0 with no within-cell movement available and a
row above: wrap to the last column of the previous row. -/
theorem handleNavKey_arrowLeft_wrap (d : Dom) (s : GridState) (e : KeyEvent)
    (r : Nat) (ii : Option Nat) (hk : e.key = "ArrowLeft") (cell : Cell)
    (hcell : getCellAtPosition d r 0 = some cell)
    (hno : ¬(0 < cell.inter ∧ 0 < ii.getD 0)) (hrow : 0 < r)
    (prevCell : Cell)
    (hprev : getCellAtPosition d (r - 1) (d.totalCols - 1) = some prevCell) :
    handleNavKey d s ⟨r, 0, ii⟩ e =
      focusResult
        (focusCell d s (r - 1) (d.totalCols - 1) (prevCell.inter - 1)) := by
  unfold handleNavKey
  dsimp only
  rw [if_neg (by rw [hk]; decide), if_pos hk, hcell]
  dsimp only
  rw [if_neg hno, if_neg (by decide : ¬(0 : Nat) < 0), if_pos hrow, hprev]

/-! Claims. -/

/-- C3: if the columns list or the data list is empty, the `DataGrid`
component renders nothing (the early `return null`), so no handlers are
installed and no focus state can ever be created. -/
theorem C3_emptyGridRendersNothing (p : Props)
    (h : p.columns = [] ∨ p.data = []) : DataGrid p = none := by
  unfold DataGrid
  rcases h with h | h <;> simp [h]

/-- Witness for C3 at a concrete input. -/
theorem C3_emptyGridRendersNothing_witness : DataGrid ⟨[], [[2]]⟩ = none :=
  C3_emptyGridRendersNothing ⟨[], [[2]]⟩ (Or.inl rfl)

/-- C8: a navigation whose computed coordinate resolves to no cell in the
focusable inventory is abandoned silently and atomically: `focusCell`
leaves the whole state (both `focusPosition` and `lastFocusedCell`)
unchanged and transfers focus to nothing. -/
theorem C8_missingTargetAbandoned (d : Dom) (s : GridState) (row col i : Nat)
    (h : getCellAtPosition d row col = none) :
    focusCell d s row col i = (s, none) :=
  focusCell_not_found d s row col i h

/-- Witness for C8 at a concrete input (a document whose cell list is
empty, e.g. after the content changed between render and event). -/
theorem C8_missingTargetAbandoned_witness :
    focusCell ⟨[], 1, 1⟩ ⟨some ⟨0, 0, none⟩, some (.cell 0), false⟩ 0 0 0 =
      (⟨some ⟨0, 0, none⟩, some (.cell 0), false⟩, none) :=
  C8_missingTargetAbandoned ⟨[], 1, 1⟩ _ 0 0 0 rfl

/-- C4: an arrow-key event whose native focus target is a text-editing
control (an `input`, `textarea` or `select` tag, or a content-editable
element) is a complete no-op for the navigation handler: the state is
unchanged, no focus transfer occurs, and `preventDefault` is not called,
so the control keeps its own cursor movement. -/
theorem C4_textEditingControlNoOp (d : Dom) (s : GridState) (e : KeyEvent)
    (htarget : lowercase e.target.tagName = "input" ∨
      lowercase e.target.tagName = "textarea" ∨
      lowercase e.target.tagName = "select" ∨
      e.target.isContentEditable = true)
    (hkey : e.key = "ArrowLeft" ∨ e.key = "ArrowRight" ∨
      e.key = "ArrowUp" ∨ e.key = "ArrowDown") :
    handleKeyDown d s e = ⟨s, none, false⟩ := by
  have h1 : isTextInput e.target = true := by
    unfold isTextInput
    rcases htarget with h | h | h | h <;> simp [h]
  unfold handleKeyDown
  rw [if_pos ⟨h1, hkey⟩]

/-- Witness for C4 at a concrete input: ArrowLeft with focus inside a
textarea. -/
theorem C4_textEditingControlNoOp_witness :
    handleKeyDown ⟨[⟨1⟩], 1, 1⟩ ⟨some ⟨0, 0, some 0⟩, none, false⟩
        ⟨"ArrowLeft", false, false, ⟨"textarea", "", false⟩⟩ =
      ⟨⟨some ⟨0, 0, some 0⟩, none, false⟩, none, false⟩ :=
  C4_textEditingControlNoOp _ _ _ (Or.inr (Or.inl (by decide))) (Or.inl rfl)

/-- C10: while the grid is mounted but no focus position has ever been
recorded, every navigation key (arrows, Home, End) is a complete no-op
with `preventDefault` not called; by contrast, a failed directional guard
in the focused state (here: ArrowUp at row 0) still calls
`preventDefault` while changing nothing. -/
theorem C10_unfocusedNavigationNoOp (d : Dom) (s : GridState) (e : KeyEvent) :
    (s.focusPosition = none →
      (e.key = "ArrowUp" ∨ e.key = "ArrowDown" ∨ e.key = "ArrowLeft" ∨
        e.key = "ArrowRight" ∨ e.key = "Home" ∨ e.key = "End") →
      handleKeyDown d s e = ⟨s, none, false⟩) ∧
    (∀ fp, s.focusPosition = some fp → fp.row = 0 → e.key = "ArrowUp" →
      isTextInput e.target = false →
      handleKeyDown d s e = ⟨s, none, true⟩) := by
  constructor
  · intro hpos hkey
    have hTab1 : ¬(e.key = "Tab" ∧ e.shiftKey = true) := by
      rintro ⟨h, -⟩
      rcases hkey with hk | hk | hk | hk | hk | hk <;> rw [hk] at h <;>
        exact absurd h (by decide)
    have hTab2 : ¬e.key = "Tab" := by
      intro h
      rcases hkey with hk | hk | hk | hk | hk | hk <;> rw [hk] at h <;>
        exact absurd h (by decide)
    unfold handleKeyDown
    by_cases h1 : isTextInput e.target = true ∧
        (e.key = "ArrowLeft" ∨ e.key = "ArrowRight" ∨ e.key = "ArrowUp" ∨
          e.key = "ArrowDown")
    · rw [if_pos h1]
    · rw [if_neg h1, if_neg hTab1, if_neg hTab2, hpos]
  · intro fp hpos hrow hkey htext
    have h1 : ¬(isTextInput e.target = true ∧
        (e.key = "ArrowLeft" ∨ e.key = "ArrowRight" ∨ e.key = "ArrowUp" ∨
          e.key = "ArrowDown")) := by
      rintro ⟨h, -⟩; rw [htext] at h; exact absurd h (by decide)
    have hTab1 : ¬(e.key = "Tab" ∧ e.shiftKey = true) := by
      rintro ⟨h, -⟩; rw [hkey] at h; exact absurd h (by decide)
    have hTab2 : ¬e.key = "Tab" := by
      intro h; rw [hkey] at h; exact absurd h (by decide)
    unfold handleKeyDown
    rw [if_neg h1, if_neg hTab1, if_neg hTab2, hpos]
    simp [handleNavKey, hkey, hrow]

/-- Witness for C10 at a concrete input: ArrowDown in the unfocused
state, and ArrowUp at row 0. -/
theorem C10_unfocusedNavigationNoOp_witness :
    handleKeyDown ⟨[⟨0⟩, ⟨0⟩], 1, 1⟩ ⟨none, none, false⟩
        ⟨"ArrowDown", false, false, plainTd⟩ =
      ⟨⟨none, none, false⟩, none, false⟩ ∧
    handleKeyDown ⟨[⟨0⟩, ⟨0⟩], 1, 1⟩ ⟨some ⟨0, 0, none⟩, none, false⟩
        ⟨"ArrowUp", false, false, plainTd⟩ =
      ⟨⟨some ⟨0, 0, none⟩, none, false⟩, none, true⟩ :=
  ⟨(C10_unfocusedNavigationNoOp _ _ _).1 rfl (Or.inr (Or.inl rfl)),
    (C10_unfocusedNavigationNoOp _ _ _).2 ⟨0, 0, none⟩ rfl rfl rfl
      (by decide)⟩

/-- C6: the leaving-backward flag is set only by a Shift+Tab key event
(every other key event preserves it), a container-focus event with the
flag set clears it and transfers no focus, the flag is never set by the
focus handlers, and after consumption the next container-focus event
behaves as a normal boundary re-entry — so one Shift+Tab suppresses
exactly one re-entry. -/
theorem C6_shiftTabFlagConsumedOnce (d : Dom) (s : GridState) :
    (∀ e, e.key = "Tab" → e.shiftKey = true →
      handleKeyDown d s e =
        ⟨{ s with shiftTabPressed := true }, none, false⟩) ∧
    (∀ e, ¬(e.key = "Tab" ∧ e.shiftKey = true) →
      (handleKeyDown d s e).state.shiftTabPressed = s.shiftTabPressed) ∧
    (s.shiftTabPressed = true →
      handleTableFocus d s true = ({ s with shiftTabPressed := false }, none)) ∧
    (s.shiftTabPressed = false →
      ∀ b, (handleTableFocus d s b).1.shiftTabPressed = false) ∧
    (∀ row col t,
      (handleCellFocus d s row col t).shiftTabPressed = s.shiftTabPressed) ∧
    (s.shiftTabPressed = true → ∀ t,
      (handleTableFocus d s true).1.lastFocusedCell = s.lastFocusedCell ∧
      (s.lastFocusedCell = some t →
        handleTableFocus d (handleTableFocus d s true).1 true =
          ((handleTableFocus d s true).1, some t))) := by
  have hconsume : s.shiftTabPressed = true →
      handleTableFocus d s true = ({ s with shiftTabPressed := false }, none) := by
    intro h
    unfold handleTableFocus
    rw [if_neg (by decide : ¬(true = false)), if_pos h]
  refine ⟨?_, ?_, hconsume, ?_, ?_, ?_⟩
  · intro e hk hs'
    have h1 : ¬(isTextInput e.target = true ∧
        (e.key = "ArrowLeft" ∨ e.key = "ArrowRight" ∨ e.key = "ArrowUp" ∨
          e.key = "ArrowDown")) := by
      rintro ⟨-, h⟩
      rcases h with h | h | h | h <;> rw [hk] at h <;> exact absurd h (by decide)
    unfold handleKeyDown
    rw [if_neg h1, if_pos ⟨hk, hs'⟩]
  · intro e he
    rcases handleKeyDown_state_shape d s e with h | ⟨h, hk⟩ | ⟨row, col, i, fp, -, heq, -⟩
    · rw [h]
    · exact absurd hk he
    · rw [heq]; exact focusCell_fst_shiftTab d s row col i
  · intro h b
    unfold handleTableFocus
    cases b with
    | false => simp [h]
    | true =>
      rw [if_neg (by decide : ¬(true = false)), if_neg (by simp [h])]
      cases s.lastFocusedCell with
      | some t => exact h
      | none =>
        cases d.cells[0]? with
        | none => exact h
        | some firstCell => by_cases hi : 0 < firstCell.inter <;> simp [hi, h]
  · intro row col t
    unfold handleCellFocus
    cases getCellAtPosition d row col with
    | none => rfl
    | some cell => rfl
  · intro h t
    rw [hconsume h]
    refine ⟨rfl, fun hl => ?_⟩
    unfold handleTableFocus
    rw [if_neg (by decide : ¬(true = false))]
    simp only [hl]
    rfl

/-- Witness for C6 at concrete inputs: Shift+Tab sets the flag, and a
container-focus event with the flag set consumes it without transferring
focus. -/
theorem C6_shiftTabFlagConsumedOnce_witness :
    handleKeyDown ⟨[⟨0⟩, ⟨0⟩], 1, 1⟩ ⟨some ⟨0, 0, none⟩, none, false⟩
        ⟨"Tab", true, false, plainTd⟩ =
      ⟨⟨some ⟨0, 0, none⟩, none, true⟩, none, false⟩ ∧
    handleTableFocus ⟨[⟨0⟩, ⟨0⟩], 1, 1⟩ ⟨some ⟨0, 0, none⟩, some (.cell 0), true⟩
        true =
      (⟨some ⟨0, 0, none⟩, some (.cell 0), false⟩, none) :=
  ⟨(C6_shiftTabFlagConsumedOnce ⟨[⟨0⟩, ⟨0⟩], 1, 1⟩
      ⟨some ⟨0, 0, none⟩, none, false⟩).1 ⟨"Tab", true, false, plainTd⟩ rfl rfl,
    (C6_shiftTabFlagConsumedOnce ⟨[⟨0⟩, ⟨0⟩], 1, 1⟩
      ⟨some ⟨0, 0, none⟩, some (.cell 0), true⟩).2.2.1 rfl⟩

/-- C5 counterexample: the claim requires a stale `LastFocusedTarget`
(one no longer present in the document) to be skipped in favour of the
first inventory entry, with FocusPosition initialized to (0,0).  The code
only checks that `lastFocusedCell` is non-null: at this concrete input
the recorded target `.cell 7` is not present in the two-cell document,
yet the boundary handler transfers focus to exactly that stale target and
leaves `focusPosition` untouched instead of initializing it. -/
theorem C5_staleFallback_cex :
    Target.presentIn ⟨[⟨0⟩, ⟨0⟩], 1, 1⟩ (.cell 7) = false ∧
    handleTableFocus ⟨[⟨0⟩, ⟨0⟩], 1, 1⟩ ⟨none, some (.cell 7), false⟩ true =
      (⟨none, some (.cell 7), false⟩, some (.cell 7)) := by decide

/-- C5 (amended): when native focus lands on the grid container with the
leaving-backward flag clear, the handler transfers focus to
`lastFocusedCell` whenever one exists — whether or not it is still
present in the document — without resetting FocusPosition; only when no
`lastFocusedCell` exists is the first inventory entry focused (preferring
its first interactive target) and FocusPosition initialized to
`(0, 0[, 0])`. -/
theorem C5_boundaryReentry (d : Dom) (s : GridState)
    (hflag : s.shiftTabPressed = false) :
    (∀ t, s.lastFocusedCell = some t →
      handleTableFocus d s true = (s, some t)) ∧
    (s.lastFocusedCell = none → ∀ firstCell, d.cells[0]? = some firstCell →
      (0 < firstCell.inter →
        handleTableFocus d s true =
          ({ s with lastFocusedCell := some (.inner 0 0),
                    focusPosition := some ⟨0, 0, some 0⟩ }, some (.inner 0 0))) ∧
      (firstCell.inter = 0 →
        handleTableFocus d s true =
          ({ s with lastFocusedCell := some (.cell 0),
                    focusPosition := some ⟨0, 0, none⟩ }, some (.cell 0)))) := by
  constructor
  · intro t hl
    unfold handleTableFocus
    rw [if_neg (by decide : ¬(true = false)), if_neg (by simp [hflag])]
    simp only [hl]
  · intro hl firstCell hc
    constructor <;> intro hi <;>
      · unfold handleTableFocus
        rw [if_neg (by decide : ¬(true = false)), if_neg (by simp [hflag])]
        simp only [hl, hc]
        simp [hi]

/-- Witness for C5 (amended) at a concrete input: re-entry with an
existing `lastFocusedCell` resumes at exactly that target. -/
theorem C5_boundaryReentry_witness :
    handleTableFocus ⟨[⟨0⟩, ⟨0⟩], 1, 1⟩
        ⟨some ⟨1, 0, none⟩, some (.cell 1), false⟩ true =
      (⟨some ⟨1, 0, none⟩, some (.cell 1), false⟩, some (.cell 1)) :=
  (C5_boundaryReentry ⟨[⟨0⟩, ⟨0⟩], 1, 1⟩
    ⟨some ⟨1, 0, none⟩, some (.cell 1), false⟩ rfl).1 (.cell 1) rfl

/-- C9 counterexample: the claim requires every native focus event inside
the grid (e.g. a click on a nested control) to update
`LastFocusedTarget`.  At this concrete input the cell-focus handler
records the clicked control's position in `focusPosition` but leaves
`lastFocusedCell` untouched (`none`, not the focused `.inner 0 1`). -/
theorem C9_nativeFocusUpdates_cex :
    (handleCellFocus ⟨[⟨2⟩, ⟨2⟩], 1, 1⟩ ⟨none, none, false⟩ 0 0
        (.inner 0 1)).lastFocusedCell = none ∧
    (handleCellFocus ⟨[⟨2⟩, ⟨2⟩], 1, 1⟩ ⟨none, none, false⟩ 0 0
        (.inner 0 1)).focusPosition = some ⟨0, 0, some 1⟩ := by decide

/-- C9 (amended): `lastFocusedCell` is updated to exactly the focused
target by every key-driven navigation transition that resolves a target
(`focusCell`), it is never explicitly cleared by any handler, but a
native focus event handled by `handleCellFocus` resynchronizes only
`focusPosition` and leaves `lastFocusedCell` unchanged. -/
theorem C9_lastFocusedDiscipline (d : Dom) (s : GridState) :
    (∀ row col i t, (focusCell d s row col i).2 = some t →
      ((focusCell d s row col i).1).lastFocusedCell = some t) ∧
    (∀ row col t,
      (handleCellFocus d s row col t).lastFocusedCell = s.lastFocusedCell) ∧
    (∀ e, s.lastFocusedCell.isSome = true →
      ((handleKeyDown d s e).state).lastFocusedCell.isSome = true) ∧
    (∀ b, s.lastFocusedCell.isSome = true →
      ((handleTableFocus d s b).1).lastFocusedCell.isSome = true) := by
  refine ⟨fun row col i t h => focusCell_snd_some d s row col i t h,
    ?_, ?_, ?_⟩
  · intro row col t
    unfold handleCellFocus
    cases getCellAtPosition d row col with
    | none => rfl
    | some cell => rfl
  · intro e h
    rcases handleKeyDown_state_shape d s e with hq | ⟨hq, -⟩ | ⟨row, col, i, fp, -, heq, -⟩
    · rw [hq]; exact h
    · rw [hq]; exact h
    · rw [heq]; exact focusCell_last_isSome d s row col i h
  · intro b h
    unfold handleTableFocus
    cases b with
    | false => exact h
    | true =>
      rw [if_neg (by decide : ¬(true = false))]
      split
      · exact h
      · cases hl : s.lastFocusedCell with
        | some t => simp [hl]
        | none => rw [hl] at h; simp at h

/-- Witness for C9 (amended) at a concrete input: a successful
`focusCell` records the focused target in `lastFocusedCell`. -/
theorem C9_lastFocusedDiscipline_witness :
    ((focusCell ⟨[⟨0⟩, ⟨0⟩], 1, 1⟩ ⟨none, none, false⟩ 0 0 0).1).lastFocusedCell =
      some (.cell 0) :=
  (C9_lastFocusedDiscipline ⟨[⟨0⟩, ⟨0⟩], 1, 1⟩ ⟨none, none, false⟩).1 0 0 0
    (.cell 0) rfl

/-- C7 counterexample: the claim requires an out-of-range stored
`innerIndex` to be clamped to the new valid range.  At this concrete
input the stored `innerIndex` is `5` while the cell now has only `2`
interactive targets; ArrowLeft supplies `4` to `focusCell`, whose modulo
wrap stores `(4 + 2) % 2 = 0` — not the clamped value
`min 4 (2 - 1) = 1`. -/
theorem C7_innerIndexClamp_cex :
    (handleKeyDown ⟨[⟨2⟩, ⟨2⟩], 1, 1⟩ ⟨some ⟨0, 0, some 5⟩, none, false⟩
        ⟨"ArrowLeft", false, false, plainTd⟩).state.focusPosition =
      some ⟨0, 0, some 0⟩ ∧
    min 4 (2 - 1) = 1 ∧ (0 : Nat) ≠ 1 := by decide

/-- C7 (amended): on a well-formed document, every handler preserves the
FocusPosition invariant (row and column in range; a stored `innerIndex`
indexes an interactive element of its cell); an out-of-range `innerIndex`
supplied to `focusCell` is brought back into the valid range by the
modulo wrap `(innerIndex + n) % n` — wrap-around, not min-clamping. -/
theorem C7_invariantPreserved (d : Dom) (s : GridState) (hwf : d.wf)
    (hs : stateInv d s) :
    (∀ e, stateInv d (handleKeyDown d s e).state) ∧
    (∀ b, stateInv d (handleTableFocus d s b).1) ∧
    (∀ row col t, row < d.dataRows + 1 → col < d.totalCols →
      stateInv d (handleCellFocus d s row col t)) ∧
    (∀ row col i, row < d.dataRows + 1 → col < d.totalCols →
      stateInv d (focusCell d s row col i).1) ∧
    (∀ row col i cell, getCellAtPosition d row col = some cell →
      0 < cell.inter →
      ((focusCell d s row col i).1).focusPosition =
        some ⟨row, col, some ((i + cell.inter) % cell.inter)⟩) := by
  refine ⟨?_, ?_, ?_, ?_, ?_⟩
  · intro e
    rcases handleKeyDown_state_shape d s e with
      hq | ⟨hq, -⟩ | ⟨row, col, i, fp, hp, heq, hb⟩
    · rw [hq]; exact hs
    · rw [hq]; intro fp hfp; exact hs fp hfp
    · rw [heq]
      obtain ⟨hr, hc⟩ := hb hwf (hs fp hp)
      exact focusCell_stateInv d s row col i hs hr hc
  · intro b
    unfold handleTableFocus
    by_cases hb : b = false
    · rw [if_pos hb]; exact hs
    rw [if_neg hb]
    by_cases hf : s.shiftTabPressed = true
    · rw [if_pos hf]; intro fp hfp; exact hs fp hfp
    rw [if_neg hf]
    cases s.lastFocusedCell with
    | some t => exact hs
    | none =>
      cases hc : d.cells[0]? with
      | none => exact hs
      | some firstCell =>
        dsimp only
        by_cases hi : 0 < firstCell.inter
        · rw [if_pos hi]
          intro fp hfp
          simp only [Option.some.injEq] at hfp
          subst hfp
          refine ⟨Nat.succ_pos _, hwf.2.1, fun j hj => ⟨firstCell, ?_, ?_⟩⟩
          · unfold getCellAtPosition cellIndex
            simpa using hc
          · obtain rfl := Option.some.inj hj
            exact hi
        · rw [if_neg hi]
          intro fp hfp
          simp only [Option.some.injEq] at hfp
          subst hfp
          exact ⟨Nat.succ_pos _, hwf.2.1, fun j hj => by simp at hj⟩
  · intro row col t hr hc
    unfold handleCellFocus
    cases hcell : getCellAtPosition d row col with
    | none => exact hs
    | some cell =>
      intro fp hfp
      simp only [Option.some.injEq] at hfp
      subst hfp
      refine ⟨hr, hc, fun j hj => ⟨cell, hcell, ?_⟩⟩
      have hlt := findIndex_lt_length _ _ _ hj
      simpa [interactiveElementsAt] using hlt
  · intro row col i hr hc
    exact focusCell_stateInv d s row col i hs hr hc
  · intro row col i cell hcell hi
    rw [focusCell_fst_pos d s row col i cell hcell, if_pos hi]

/-- Witness for C7 (amended) at a concrete input. -/
theorem C7_invariantPreserved_witness :
    stateInv ⟨[⟨0⟩, ⟨0⟩], 1, 1⟩
      (handleKeyDown ⟨[⟨0⟩, ⟨0⟩], 1, 1⟩ ⟨none, none, false⟩
        arrowRightEvent).state :=
  (C7_invariantPreserved ⟨[⟨0⟩, ⟨0⟩], 1, 1⟩ ⟨none, none, false⟩
    ⟨rfl, Nat.one_pos, Nat.one_pos⟩ (fun _ h => nomatch h)).1 arrowRightEvent

/-- A single ArrowRight press from `(r, c)` of a well-formed document
whose current cell has at most one interactive target (so no within-cell
movement is available), with room to the right: focus moves to
`(r, c+1)`, at its first interactive target if it has any. -/
theorem pressRight_mid (d : Dom) (s : GridState) (r c : Nat) (ii : Option Nat)
    (hwf : d.wf) (hp : s.focusPosition = some ⟨r, c, ii⟩)
    (hr : r < d.dataRows + 1)
    (hinter : ∀ cell, getCellAtPosition d r c = some cell → cell.inter ≤ 1)
    (hcol : c + 1 < d.totalCols) :
    ∃ cell2, getCellAtPosition d r (c + 1) = some cell2 ∧
      (pressArrowRight d s).focusPosition =
        some ⟨r, c + 1, if 0 < cell2.inter then some 0 else none⟩ := by
  obtain ⟨cell, hcell⟩ := getCellAtPosition_isSome d r c hwf hr (by omega)
  obtain ⟨cell2, hcell2⟩ := getCellAtPosition_isSome d r (c + 1) hwf hr hcol
  have hle := hinter cell hcell
  refine ⟨cell2, hcell2, ?_⟩
  unfold pressArrowRight
  rw [handleKeyDown_dispatch d s arrowRightEvent ⟨r, c, ii⟩ hp
      (fun h => absurd h.1 (by decide)) (by decide),
    handleNavKey_arrowRight_next d s arrowRightEvent r c ii rfl cell hcell
      (by rintro ⟨h1, h2⟩; omega) (by omega)]
  dsimp only [focusResult]
  rw [focusCell_fst_pos d s r (c + 1) 0 cell2 hcell2]
  simp [Nat.mod_self]

/-- A single ArrowRight press from the last column of row `r` of a
well-formed document whose current cell has at most one interactive
target, with a row below: focus wraps to `(r+1, 0)`. -/
theorem pressRight_wrap (d : Dom) (s : GridState) (r : Nat) (ii : Option Nat)
    (hwf : d.wf) (hp : s.focusPosition = some ⟨r, d.totalCols - 1, ii⟩)
    (hr : r < d.dataRows)
    (hinter : ∀ cell, getCellAtPosition d r (d.totalCols - 1) = some cell →
      cell.inter ≤ 1) :
    ∃ cell2, getCellAtPosition d (r + 1) 0 = some cell2 ∧
      (pressArrowRight d s).focusPosition =
        some ⟨r + 1, 0, if 0 < cell2.inter then some 0 else none⟩ := by
  obtain ⟨cell, hcell⟩ := getCellAtPosition_isSome d r (d.totalCols - 1) hwf
    (by omega) (by have := hwf.2.1; omega)
  obtain ⟨cell2, hcell2⟩ := getCellAtPosition_isSome d (r + 1) 0 hwf
    (by omega) hwf.2.1
  have hle := hinter cell hcell
  refine ⟨cell2, hcell2, ?_⟩
  unfold pressArrowRight
  rw [handleKeyDown_dispatch d s arrowRightEvent ⟨r, d.totalCols - 1, ii⟩ hp
      (fun h => absurd h.1 (by decide)) (by decide),
    handleNavKey_arrowRight_wrap d s arrowRightEvent r (d.totalCols - 1) ii
      rfl cell hcell (by rintro ⟨h1, h2⟩; omega) (by omega) (by omega)]
  dsimp only [focusResult]
  rw [focusCell_fst_pos d s (r + 1) 0 0 cell2 hcell2]
  simp [Nat.mod_self]

/-- C1: on a well-formed grid, ArrowRight at the last column with no
within-cell movement available and a row below moves focus to
`(r+1, 0)`; consequently `columnCount` ArrowRight presses from `(r, 0)`
along a row whose cells have at most one interactive target each land on
`(r+1, 0)` — the row wrap at the right edge. -/
theorem C1_rowWrapRight (d : Dom) (hwf : d.wf) :
    (∀ s e r ii cell, e.key = "ArrowRight" → isTextInput e.target = false →
      s.focusPosition = some ⟨r, d.totalCols - 1, ii⟩ → r < d.dataRows →
      getCellAtPosition d r (d.totalCols - 1) = some cell →
      ¬(0 < cell.inter ∧ ii.getD 0 < cell.inter - 1) →
      ∃ jj, (handleKeyDown d s e).state.focusPosition =
        some ⟨r + 1, 0, jj⟩) ∧
    (∀ s r ii, s.focusPosition = some ⟨r, 0, ii⟩ → r < d.dataRows →
      (∀ c, c < d.totalCols → ∀ cell, getCellAtPosition d r c = some cell →
        cell.inter ≤ 1) →
      ∃ jj, ((pressArrowRight d)^[d.totalCols] s).focusPosition =
        some ⟨r + 1, 0, jj⟩) := by
  constructor
  · intro s e r ii cell hk ht hp hr hcell hno
    obtain ⟨cell2, hcell2⟩ := getCellAtPosition_isSome d (r + 1) 0 hwf
      (by omega) hwf.2.1
    rw [handleKeyDown_dispatch d s e ⟨r, d.totalCols - 1, ii⟩ hp
        (by rintro ⟨h1, -⟩; rw [ht] at h1; exact absurd h1 (by decide))
        (by rw [hk]; decide),
      handleNavKey_arrowRight_wrap d s e r (d.totalCols - 1) ii hk cell hcell
        hno (by omega) (by omega)]
    dsimp only [focusResult]
    rw [focusCell_fst_pos d s (r + 1) 0 0 cell2 hcell2]
    exact ⟨_, rfl⟩
  · intro s r ii hp hr hrow
    have main : ∀ k, k < d.totalCols →
        ∃ jj, ((pressArrowRight d)^[k] s).focusPosition = some ⟨r, k, jj⟩ := by
      intro k
      induction k with
      | zero => intro _; exact ⟨ii, by simpa using hp⟩
      | succ k ih =>
        intro hk
        obtain ⟨jj, hjj⟩ := ih (by omega)
        obtain ⟨cell2, hc2, hstep⟩ :=
          pressRight_mid d ((pressArrowRight d)^[k] s) r k jj hwf hjj
            (by omega) (fun cell hcell => hrow k (by omega) cell hcell) hk
        rw [Function.iterate_succ_apply']
        exact ⟨_, hstep⟩
    obtain ⟨jj, hjj⟩ := main (d.totalCols - 1) (by have := hwf.2.1; omega)
    obtain ⟨cell2, hc2, hstep⟩ :=
      pressRight_wrap d ((pressArrowRight d)^[d.totalCols - 1] s) r jj hwf hjj
        hr (fun cell hcell => hrow (d.totalCols - 1)
          (by have := hwf.2.1; omega) cell hcell)
    have htc : d.totalCols - 1 + 1 = d.totalCols := by
      have := hwf.2.1; omega
    rw [← htc, Function.iterate_succ_apply']
    exact ⟨_, hstep⟩

/-- Witness for C1 at a concrete input: a 3-column grid with one data
row; two ArrowRight presses from `(0, 0)` — wait, `columnCount = 2`
here: two presses from `(0, 0)` land on `(1, 0)`. -/
theorem C1_rowWrapRight_witness :
    ∃ jj, ((pressArrowRight ⟨[⟨0⟩, ⟨0⟩, ⟨0⟩, ⟨0⟩], 2, 1⟩)^[2]
        ⟨some ⟨0, 0, none⟩, none, false⟩).focusPosition =
      some ⟨1, 0, jj⟩ :=
  (C1_rowWrapRight ⟨[⟨0⟩, ⟨0⟩, ⟨0⟩, ⟨0⟩], 2, 1⟩
      ⟨rfl, by decide, by decide⟩).2
    ⟨some ⟨0, 0, none⟩, none, false⟩ 0 none rfl (by decide)
    (fun c hc cell hcell => by
      obtain ⟨n⟩ := cell
      have hc2 : c < 2 := hc
      show n ≤ 1
      have hcases : c = 0 ∨ c = 1 := by omega
      rcases hcases with rfl | rfl <;>
        simp [getCellAtPosition, cellIndex] at hcell <;> omega)

/-- C2: on a well-formed grid, ArrowLeft at `(r, 0)` with `r > 0` and no
within-cell movement available (`innerIndex` absent or 0) moves focus to
`(r-1, columnCount-1)`, with `innerIndex` set to that cell's last
interactive target if it has any and absent otherwise — the row wrap at
the left edge. -/
theorem C2_rowWrapLeft (d : Dom) (s : GridState) (e : KeyEvent) (r : Nat)
    (ii : Option Nat) (hwf : d.wf) (hk : e.key = "ArrowLeft")
    (ht : isTextInput e.target = false)
    (hp : s.focusPosition = some ⟨r, 0, ii⟩)
    (hr0 : 0 < r) (hr : r < d.dataRows + 1)
    (hii : ii = none ∨ ii = some 0) :
    ∃ prevCell,
      getCellAtPosition d (r - 1) (d.totalCols - 1) = some prevCell ∧
      (handleKeyDown d s e).state.focusPosition =
        some ⟨r - 1, d.totalCols - 1,
          if 0 < prevCell.inter then some (prevCell.inter - 1)
          else none⟩ := by
  obtain ⟨cell, hcell⟩ := getCellAtPosition_isSome d r 0 hwf hr hwf.2.1
  obtain ⟨prevCell, hprev⟩ := getCellAtPosition_isSome d (r - 1)
    (d.totalCols - 1) hwf (by omega) (by have := hwf.2.1; omega)
  refine ⟨prevCell, hprev, ?_⟩
  rw [handleKeyDown_dispatch d s e ⟨r, 0, ii⟩ hp
      (by rintro ⟨h1, -⟩; rw [ht] at h1; exact absurd h1 (by decide))
      (by rw [hk]; decide),
    handleNavKey_arrowLeft_wrap d s e r ii hk cell hcell
      (by rintro ⟨-, h2⟩; rcases hii with rfl | rfl <;> simp at h2) hr0
      prevCell hprev]
  dsimp only [focusResult]
  rw [focusCell_fst_pos d s (r - 1) (d.totalCols - 1) (prevCell.inter - 1)
      prevCell hprev]
  by_cases hpi : 0 < prevCell.inter
  · rw [if_pos hpi, if_pos hpi, mod_wrap_last _ hpi]
  · rw [if_neg hpi, if_neg hpi]

/-- Witness for C2 at a concrete input: a 2-column grid with one data
row; the cell `(0, 1)` has two interactive targets, and ArrowLeft from
`(1, 0)` lands on its last target `(0, 1, innerIndex = 1)`. -/
theorem C2_rowWrapLeft_witness :
    ∃ prevCell,
      getCellAtPosition ⟨[⟨0⟩, ⟨2⟩, ⟨0⟩, ⟨0⟩], 2, 1⟩ 0 1 = some prevCell ∧
      (handleKeyDown ⟨[⟨0⟩, ⟨2⟩, ⟨0⟩, ⟨0⟩], 2, 1⟩
          ⟨some ⟨1, 0, none⟩, none, false⟩
          ⟨"ArrowLeft", false, false, plainTd⟩).state.focusPosition =
        some ⟨0, 1,
          if 0 < prevCell.inter then some (prevCell.inter - 1)
          else none⟩ :=
  C2_rowWrapLeft ⟨[⟨0⟩, ⟨2⟩, ⟨0⟩, ⟨0⟩], 2, 1⟩
    ⟨some ⟨1, 0, none⟩, none, false⟩ ⟨"ArrowLeft", false, false, plainTd⟩
    1 none ⟨rfl, by decide, by decide⟩ rfl (by decide) rfl (by decide)
    (by decide) (Or.inl rfl)

end ATable
